import Mathlib

/-!
Verification of the 3d-character-rotate scene compositor against its
natural-language specification.  Every definition below is a shallow
embedding of a function found in the repository sources; JS numbers are
modelled as exact rationals (plus explicit NaN/infinity constructors where
the source tests finiteness), fallible GL calls are modelled with `Except`,
and the React / gesture handlers are modelled as explicit state machines.
-/

section CapabilityAdapter

/-- A JavaScript number as observed by `getSafeAnisotropy`
(src/utils/glCaps.ts): either a finite value, NaN, or an infinity.
`isFinite` is true exactly on the `num` constructor. -/
inductive JSNum where
  | num (q : ℚ)
  | nan
  | posInf
  | negInf
deriving DecidableEq, Repr

/-- The slice of `renderer.capabilities` that `getSafeAnisotropy` reads:
`getMaxAnisotropy` is `some r` when the property is a function (and `r` is
the number that call returns); `maxAnisotropy` is `some v` when the
property holds a number (possibly NaN).  The whole renderer argument is
`Option Caps`: `none` covers both a null renderer and a renderer without a
`capabilities` object, the two cases of the first guard in the source. -/
structure Caps where
  getMaxAnisotropy : Option JSNum
  maxAnisotropy : Option JSNum
deriving DecidableEq, Repr

/-- Shallow embedding of `getSafeAnisotropy` (src/utils/glCaps.ts lines
3-16): pick `getMaxAnisotropy()` if it is a function, else the numeric
`maxAnisotropy` property, else undefined; replace anything that is not a
finite positive number by 1; return `Math.max(1, Math.min(8, value))`. -/
def getSafeAnisotropy (renderer : Option Caps) : ℚ :=
  match renderer with
  | none => 1
  | some caps =>
    let max? : Option JSNum :=
      match caps.getMaxAnisotropy with
      | some r => some r
      | none => caps.maxAnisotropy
    let value : ℚ :=
      match max? with
      | some (JSNum.num q) => if 0 < q then q else 1
      | _ => 1
    max 1 (min 8 value)

/-- The capability value the source reads (src/utils/glCaps.ts lines
8-12): the result of `caps.getMaxAnisotropy()` when that property is a
function, else the numeric `caps.maxAnisotropy` property, else
undefined.  This is exactly the `max?` of `getSafeAnisotropy`, named so
the spec theorem can quantify over the read value regardless of which
branch produced it. -/
def readMaxAnisotropy (caps : Caps) : Option JSNum :=
  match caps.getMaxAnisotropy with
  | some r => some r
  | none => caps.maxAnisotropy

end CapabilityAdapter

section CapabilityAdapterTheorems

/-- C4 counterexample: the claim says the result equals `v` for every
finite positive capability value with `v ≤ 8`, but for `v = 1/2` (finite,
positive, at most 8) the code returns `1`, not `1/2`. -/
theorem getSafeAnisotropy_not_id_below_one :
    getSafeAnisotropy (some ⟨some (JSNum.num (1/2)), none⟩) = 1 ∧
    (0 : ℚ) < 1/2 ∧ (1/2 : ℚ) ≤ 8 ∧ (1 : ℚ) ≠ 1/2 := by
  refine ⟨?_, by norm_num, by norm_num, by norm_num⟩
  simp [getSafeAnisotropy]
  norm_num

/-- The result of `getSafeAnisotropy` on a present renderer is a
function of the read capability value alone, whichever branch
(function call or numeric property) produced it. -/
theorem getSafeAnisotropy_read (caps : Caps) :
    getSafeAnisotropy (some caps) =
      max 1 (min 8 (match readMaxAnisotropy caps with
        | some (JSNum.num q) => if 0 < q then q else 1
        | _ => 1)) := rfl

/-- C4 (amended): for every finite positive capability value `v` — read
through either source branch, the `getMaxAnisotropy()` function or the
numeric `maxAnisotropy` property — the result is `max 1 (min 8 v)`,
hence always in `[1, 8]`, equal to `v` when `1 ≤ v ≤ 8` and equal to
`8` when `v > 8`; and the result is exactly `1` for a null renderer or
missing capabilities, for a missing value (neither branch present), for
NaN, for either infinity, and for a non-positive value.  The function
is total, so it never throws. -/
theorem getSafeAnisotropy_spec (caps : Caps) (v : ℚ) (r : Option Caps) :
    (readMaxAnisotropy caps = some (JSNum.num v) → 0 < v →
      getSafeAnisotropy (some caps) = max 1 (min 8 v) ∧
      1 ≤ getSafeAnisotropy (some caps) ∧ getSafeAnisotropy (some caps) ≤ 8 ∧
      (1 ≤ v → v ≤ 8 → getSafeAnisotropy (some caps) = v) ∧
      (8 < v → getSafeAnisotropy (some caps) = 8)) ∧
    (1 ≤ getSafeAnisotropy r ∧ getSafeAnisotropy r ≤ 8) ∧
    (getSafeAnisotropy none = 1) ∧
    (readMaxAnisotropy caps = some JSNum.nan →
      getSafeAnisotropy (some caps) = 1) ∧
    (readMaxAnisotropy caps = some JSNum.posInf →
      getSafeAnisotropy (some caps) = 1) ∧
    (readMaxAnisotropy caps = some JSNum.negInf →
      getSafeAnisotropy (some caps) = 1) ∧
    (readMaxAnisotropy caps = some (JSNum.num v) → v ≤ 0 →
      getSafeAnisotropy (some caps) = 1) ∧
    (readMaxAnisotropy caps = none → getSafeAnisotropy (some caps) = 1) := by
  constructor
  · intro hget hv
    have hval : getSafeAnisotropy (some caps) = max 1 (min 8 v) := by
      rw [getSafeAnisotropy_read, hget]
      simp [hv]
    refine ⟨hval, ?_, ?_, ?_, ?_⟩
    · rw [hval]; exact le_max_left _ _
    · rw [hval]; exact max_le (by norm_num) (min_le_left _ _)
    · intro h1 h8
      rw [hval, min_eq_right h8, max_eq_right h1]
    · intro h8
      rw [hval, min_eq_left (le_of_lt h8), max_eq_right (by norm_num)]
  refine ⟨?_, ?_, ?_, ?_, ?_, ?_, ?_⟩
  · cases r with
    | none => simp [getSafeAnisotropy]
    | some c =>
      constructor
      · exact le_max_left _ _
      · exact max_le (by norm_num) (min_le_left _ _)
  · simp [getSafeAnisotropy]
  · intro h
    rw [getSafeAnisotropy_read, h]
    norm_num
  · intro h
    rw [getSafeAnisotropy_read, h]
    norm_num
  · intro h
    rw [getSafeAnisotropy_read, h]
    norm_num
  · intro h hv
    rw [getSafeAnisotropy_read, h]
    simp [not_lt.mpr hv]
  · intro h
    rw [getSafeAnisotropy_read, h]
    norm_num

/-- Witness for the amended C4 theorem at the concrete capability value
4, read through the numeric-property fallback branch (the
`getMaxAnisotropy` function is absent). -/
theorem getSafeAnisotropy_spec_witness :
    readMaxAnisotropy ⟨none, some (JSNum.num 4)⟩ = some (JSNum.num 4) ∧
    (0 : ℚ) < 4 ∧
    getSafeAnisotropy (some ⟨none, some (JSNum.num 4)⟩) = max 1 (min 8 4) :=
  ⟨rfl, by norm_num,
    ((getSafeAnisotropy_spec ⟨none, some (JSNum.num 4)⟩ 4 none).1 rfl
      (by norm_num)).1⟩

end CapabilityAdapterTheorems

section PixelStorePatches

/-- A GL runtime fault raised by the underlying (unpatched) context call. -/
inductive GLErr where
  | glFault
deriving DecidableEq, Repr

/-- The six pixel-unpack parameter identifiers that the `onCreated` patch
in src/app/character-rotate.tsx (lines 157-192) treats as unsupported:
UNPACK_FLIP_Y_WEBGL, UNPACK_PREMULTIPLY_ALPHA_WEBGL,
UNPACK_COLORSPACE_CONVERSION_WEBGL, UNPACK_ROW_LENGTH, UNPACK_SKIP_ROWS,
UNPACK_SKIP_PIXELS.  The source reads each constant off the context with a
numeric fallback to exactly these values, so the set is fixed. -/
def onCreatedUnsupported : List ℕ := [0x9240, 0x9241, 0x9243, 0x0CF2, 0x0CF3, 0x0CF4]

/-- Shallow embedding of the patched `ctx.pixelStorei` installed by
`onCreated` in src/app/character-rotate.tsx (lines 181-191): a parameter
in the unsupported set is quietly ignored; any other parameter is
forwarded to the original call inside a try block whose catch swallows
the exception. -/
def onCreatedPixelStorei (orig : ℕ → ℤ → Except GLErr Unit)
    (pname : ℕ) (param : ℤ) : Except GLErr Unit :=
  if pname ∈ onCreatedUnsupported then Except.ok ()
  else
    match orig pname param with
    | Except.ok u => Except.ok u
    | Except.error _ => Except.ok ()

/-- Shallow embedding of the prototype patch `patchEXGLPixelStorei` in
src/unnamed/part_002 (lines 120-161): its unsupported set is
UNPACK_COLORSPACE_CONVERSION_WEBGL (0x9243) and
UNPACK_PREMULTIPLY_ALPHA_WEBGL (0x9241); any other parameter is forwarded
by `orig.call(this, pname, param)` with no try/catch around it. -/
def patchEXGLPixelStorei (orig : ℕ → ℤ → Except GLErr Unit)
    (pname : ℕ) (param : ℤ) : Except GLErr Unit :=
  if pname = 0x9243 ∨ pname = 0x9241 then Except.ok ()
  else orig pname param

end PixelStorePatches

section PixelStorePatchTheorems

/-- C5 counterexample: the claim says that in no case does a patched
pixel-unpack call raise, yet the prototype patch of src/unnamed/part_002
forwards a supported parameter (here 0x0CF2, outside its two-element
unsupported set) without any catch, so a fault in the underlying call
propagates to the caller. -/
theorem patchEXGLPixelStorei_propagates_fault :
    patchEXGLPixelStorei (fun _ _ => Except.error GLErr.glFault) 0x0CF2 0 =
      Except.error GLErr.glFault := by
  simp [patchEXGLPixelStorei]

/-- C5 (amended): for the `onCreated` patch every conjunct of the claim
holds: an unsupported parameter is ignored (a no-op) with a result independent of
the underlying context (hence never forwarded), any other parameter is
forwarded unchanged, and an exception from the underlying call is caught
and discarded, so the patched call never raises.  For the prototype patch
of src/unnamed/part_002 the first two conjuncts hold over its own
two-element unsupported set, but a fault from a forwarded underlying call
propagates (there is no catch). -/
theorem pixelStorei_patch_spec (orig orig2 : ℕ → ℤ → Except GLErr Unit)
    (pname : ℕ) (param : ℤ) :
    (pname ∈ onCreatedUnsupported →
      onCreatedPixelStorei orig pname param = Except.ok () ∧
      onCreatedPixelStorei orig pname param = onCreatedPixelStorei orig2 pname param) ∧
    (pname ∉ onCreatedUnsupported →
      (orig pname param = Except.ok () →
        onCreatedPixelStorei orig pname param = Except.ok ()) ∧
      (∀ e, orig pname param = Except.error e →
        onCreatedPixelStorei orig pname param = Except.ok ())) ∧
    (∃ u, onCreatedPixelStorei orig pname param = Except.ok u) ∧
    ((pname = 0x9243 ∨ pname = 0x9241) →
      patchEXGLPixelStorei orig pname param = Except.ok () ∧
      patchEXGLPixelStorei orig pname param = patchEXGLPixelStorei orig2 pname param) ∧
    (¬(pname = 0x9243 ∨ pname = 0x9241) →
      patchEXGLPixelStorei orig pname param = orig pname param) := by
  refine ⟨?_, ?_, ?_, ?_, ?_⟩
  · intro h
    constructor <;> simp [onCreatedPixelStorei, h]
  · intro h
    constructor
    · intro hok
      simp [onCreatedPixelStorei, h, hok]
    · intro e herr
      simp [onCreatedPixelStorei, h, herr]
  · unfold onCreatedPixelStorei
    by_cases h : pname ∈ onCreatedUnsupported
    · exact ⟨(), by simp [h]⟩
    · match horig : orig pname param with
      | Except.ok u => exact ⟨u, by simp [h, horig]⟩
      | Except.error e => exact ⟨(), by simp [h, horig]⟩
  · intro h
    constructor <;> simp [patchEXGLPixelStorei, h]
  · intro h
    simp [patchEXGLPixelStorei, h]

/-- Witness for the amended C5 theorem: parameter 0x9243 is in both
unsupported sets, and both patches no-op it. -/
theorem pixelStorei_patch_spec_witness :
    (0x9243 : ℕ) ∈ onCreatedUnsupported ∧
    onCreatedPixelStorei (fun _ _ => Except.error GLErr.glFault) 0x9243 0 =
      Except.ok () :=
  ⟨by decide,
    ((pixelStorei_patch_spec (fun _ _ => Except.error GLErr.glFault)
      (fun _ _ => Except.ok ()) 0x9243 0).1 (by decide)).1⟩

end PixelStorePatchTheorems

section ParameterQueryPatch

/-- Shallow embedding of the patched `gl.getParameter` installed on
`GLView.prototype.createContextAsync` in src/app/avatar-create.tsx
(lines 91-95): an undefined parameter name returns 0; if the original
getter is absent the call returns 0; otherwise the call is forwarded to
the original getter with no try/catch around it.  `pname` is `Option`
because the source compares it against `undefined`; the original getter
returns a JS number, modelled as a rational. -/
def patchedGetParameter (orig : Option (ℕ → Except GLErr ℚ))
    (pname : Option ℕ) : Except GLErr ℚ :=
  match pname with
  | none => Except.ok 0
  | some p =>
    match orig with
    | none => Except.ok 0
    | some f => f p

end ParameterQueryPatch

section ParameterQueryPatchTheorems

/-- C9 counterexample: the claim says that when the underlying query
throws, the patched query returns the default 0 and never propagates the
failure; but the patch has no try/catch, so with an underlying getter
that faults on parameter 5 the patched call returns that fault, not 0. -/
theorem patchedGetParameter_propagates_fault :
    patchedGetParameter (some (fun _ => Except.error GLErr.glFault)) (some 5) =
      Except.error GLErr.glFault := by
  simp [patchedGetParameter]

/-- C9 (amended): when the real value is unavailable — the parameter name
is undefined, or the original getter is absent — the patched query
returns the deterministic default 0 without failing; otherwise the call
is forwarded unchanged to the underlying getter, and a failure raised by
that getter propagates to the caller (there is no catch). -/
theorem patchedGetParameter_spec (orig : Option (ℕ → Except GLErr ℚ))
    (pname : Option ℕ) :
    (pname = none → patchedGetParameter orig pname = Except.ok 0) ∧
    (orig = none → patchedGetParameter orig pname = Except.ok 0) ∧
    (∀ f p, orig = some f → pname = some p →
      patchedGetParameter orig pname = f p) := by
  refine ⟨?_, ?_, ?_⟩
  · intro h; simp [patchedGetParameter, h]
  · intro h
    cases pname <;> simp [patchedGetParameter, h]
  · intro f p hf hp
    simp [patchedGetParameter, hf, hp]

/-- Witness for the amended C9 theorem: an undefined parameter name gives 0. -/
theorem patchedGetParameter_spec_witness :
    patchedGetParameter (some (fun _ => Except.error GLErr.glFault)) none =
      Except.ok 0 :=
  (patchedGetParameter_spec (some (fun _ => Except.error GLErr.glFault)) none).1
    rfl

end ParameterQueryPatchTheorems

section AssetNormalizer

/-- The slice of a loaded GLTF scene that the normalization effect in
`CharacterInner` (src/components/Stage.tsx, Character module lines
789-802) reads and writes: the vertical position of the scene root, the
uniform scale applied by `scene.scale.set(scale, scale, scale)`, and the
local y coordinates of every mesh vertex reachable by the traversal
(the traversal also flips `castShadow` and `receiveShadow`, which does
not affect geometry and is omitted). -/
structure SceneGraphY where
  posY : ℚ
  scaleY : ℚ
  vertsY : List ℚ
deriving DecidableEq, Repr

/-- The world-space y coordinates of all vertices of the scene, as seen
by `new THREE.Box3().setFromObject(gltf.scene)`: the root position plus
the scaled local coordinate. -/
def worldYs (s : SceneGraphY) : List ℚ :=
  s.vertsY.map (fun v => s.posY + s.scaleY * v)

/-- Minimum of a list of rationals, `none` on the empty list (an empty
Box3 reports +infinity, which the loader never sees because a loaded
model has geometry). -/
def minY? : List ℚ → Option ℚ
  | [] => none
  | w :: ws => some (ws.foldl min w)

/-- Shallow embedding of the normalization step of `CharacterInner`:
`const minY = box.min.y; gltf.scene.position.y -= minY;`.  A scene with
no vertices is returned unchanged (the source would subtract the +inf of
an empty box, a case that cannot arise for a loaded model). -/
def normalizeScene (s : SceneGraphY) : SceneGraphY :=
  match minY? (worldYs s) with
  | none => s
  | some m => { s with posY := s.posY - m }

/-- Folding `min` over a list shifted by a constant shifts the result. -/
theorem foldl_min_map_add (a w : ℚ) (ws : List ℚ) :
    (ws.map (fun v => v + a)).foldl min (w + a) = ws.foldl min w + a := by
  induction ws generalizing w with
  | nil => rfl
  | cons x xs ih =>
    simp only [List.map_cons, List.foldl_cons]
    rw [min_add_add_right, ih]

/-- Shifting every element of a list by a constant shifts its minimum. -/
theorem minY?_map_add (a : ℚ) (l : List ℚ) :
    minY? (l.map (fun v => v + a)) = (minY? l).map (fun v => v + a) := by
  cases l with
  | nil => rfl
  | cons w ws =>
    simp only [List.map_cons, minY?]
    rw [foldl_min_map_add]
    rfl

end AssetNormalizer

section AssetNormalizerTheorems

/-- C2: for every loaded scene with at least one vertex, after the
normalization step (bounding box of the whole scene graph, then shift
the root position down by the minimum world y) the bounding-box minimum
y of the normalized scene is exactly 0 — in particular within the
floating-point tolerance 1e-4 of the claim. -/
theorem normalize_minY_zero (s : SceneGraphY) (h : s.vertsY ≠ []) :
    minY? (worldYs (normalizeScene s)) = some 0 ∧
    ∀ m, minY? (worldYs (normalizeScene s)) = some m → |m| ≤ 1 / 10000 := by
  obtain ⟨v, vs, hv⟩ := List.exists_cons_of_ne_nil h
  have hmin : minY? (worldYs s) =
      some ((vs.map (fun x => s.posY + s.scaleY * x)).foldl min
        (s.posY + s.scaleY * v)) := by
    simp [worldYs, minY?, hv]
  have hzero : minY? (worldYs (normalizeScene s)) = some 0 := by
    set m := (vs.map (fun x => s.posY + s.scaleY * x)).foldl min
      (s.posY + s.scaleY * v) with hm
    have hns : normalizeScene s = { s with posY := s.posY - m } := by
      rw [normalizeScene, hmin]
    rw [hns]
    have hworld : worldYs { s with posY := s.posY - m } =
        (worldYs s).map (fun w => w + (-m)) := by
      simp only [worldYs, List.map_map]
      apply List.map_congr_left
      intro x _
      simp only [Function.comp_apply]
      ring
    rw [hworld, minY?_map_add, hmin]
    simp
  refine ⟨hzero, ?_⟩
  intro m hmeq
  rw [hzero] at hmeq
  injection hmeq with hmeq
  rw [← hmeq]
  norm_num

/-- Witness for C2 at a concrete two-vertex scene. -/
theorem normalize_minY_zero_witness :
    (⟨3, 2, [5, -4]⟩ : SceneGraphY).vertsY ≠ [] ∧
    minY? (worldYs (normalizeScene ⟨3, 2, [5, -4]⟩)) = some 0 :=
  ⟨by decide, (normalize_minY_zero ⟨3, 2, [5, -4]⟩ (by decide)).1⟩

end AssetNormalizerTheorems

section GestureControllerDefs

/-- The state owned by `CharacterRotateScreen` in
src/app/character-rotate.tsx (lines 15-41): the yaw target `rotationY`
(React state), the drag base snapshot `dragBase` (a ref), and the
`autoRotate` flag. -/
structure GestureState where
  rotationY : ℚ
  dragBase : ℚ
  autoRotate : Bool
deriving DecidableEq, Repr

/-- The gesture events delivered by the pan and tap handlers: BEGAN,
a move carrying the accumulated horizontal translation `translationX`,
END, CANCELLED, and the double tap that toggles auto-rotate. -/
inductive GestureEvent where
  | began
  | move (dx : ℚ)
  | ended
  | cancelled
  | doubleTap
deriving DecidableEq, Repr

/-- Shallow embedding of `onGestureEvent` / `onHandlerStateChange` /
`onDoubleTap` of src/app/character-rotate.tsx: BEGAN snapshots
`dragBase.current = rotationY` and sets `autoRotate` to false; a move
sets `rotationY = dragBase.current + dx / 150`; END and CANCELLED
snapshot `dragBase.current = rotationY` and leave `autoRotate` alone;
the double tap toggles `autoRotate`. -/
def gestureStep (s : GestureState) : GestureEvent → GestureState
  | GestureEvent.began => { s with dragBase := s.rotationY, autoRotate := false }
  | GestureEvent.move dx => { s with rotationY := s.dragBase + dx / 150 }
  | GestureEvent.ended => { s with dragBase := s.rotationY }
  | GestureEvent.cancelled => { s with dragBase := s.rotationY }
  | GestureEvent.doubleTap => { s with autoRotate := !s.autoRotate }

/-- Run a sequence of gesture events from a state. -/
def gestureRun (s : GestureState) (es : List GestureEvent) : GestureState :=
  es.foldl gestureStep s

/-- During a run of move events the drag base never changes and the yaw
target after the final move with accumulated delta `d` equals the base
plus `d / 150`. -/
theorem gestureRun_moves (s : GestureState) (ds : List ℚ) (d : ℚ) :
    (gestureRun s ((ds ++ [d]).map GestureEvent.move)).dragBase = s.dragBase ∧
    (gestureRun s ((ds ++ [d]).map GestureEvent.move)).rotationY =
      s.dragBase + d / 150 := by
  induction ds generalizing s with
  | nil => exact ⟨rfl, rfl⟩
  | cons d0 ds ih =>
    have := ih { s with rotationY := s.dragBase + d0 / 150 }
    simpa [gestureRun, gestureStep] using this

/-- Auto-rotate stays off under any event that is not the double tap. -/
theorem gestureRun_autoRotate_off (s : GestureState) (es : List GestureEvent)
    (hs : s.autoRotate = false) (hes : ∀ e ∈ es, e ≠ GestureEvent.doubleTap) :
    (gestureRun s es).autoRotate = false := by
  induction es generalizing s with
  | nil => exact hs
  | cons e es ih =>
    have he := hes e (List.mem_cons_self e es)
    have hrest : ∀ x ∈ es, x ≠ GestureEvent.doubleTap :=
      fun x hx => hes x (List.mem_cons_of_mem e hx)
    have hstep : (gestureStep s e).autoRotate = false := by
      cases e with
      | began => rfl
      | move dx => exact hs
      | ended => exact hs
      | cancelled => exact hs
      | doubleTap => exact absurd rfl he
    exact ih (gestureStep s e) hstep hrest

end GestureControllerDefs

section GestureControllerTheorems

/-- C8: a gesture-begin snapshots the drag base from the current yaw
target and disables auto-rotate; every subsequent move — here the move
ending an arbitrary move sequence `ds ++ [d]`, so any move of the
gesture — with accumulated delta `d` sets the yaw target to that base
plus `d / 150` (the sensitivity constant); and auto-rotate stays
disabled through every following move, end or cancel event, returning
only with an explicit double-tap toggle. -/
theorem drag_gesture_spec (s : GestureState) (ds : List ℚ) (d : ℚ)
    (es : List GestureEvent)
    (hes : ∀ e ∈ es, e ≠ GestureEvent.doubleTap) :
    (gestureStep s GestureEvent.began).dragBase = s.rotationY ∧
    (gestureStep s GestureEvent.began).autoRotate = false ∧
    (gestureRun s (GestureEvent.began ::
        (ds ++ [d]).map GestureEvent.move)).rotationY =
      s.rotationY + d / 150 ∧
    (gestureRun s (GestureEvent.began :: es)).autoRotate = false := by
  refine ⟨rfl, rfl, ?_, ?_⟩
  · have hrun : gestureRun s (GestureEvent.began ::
        (ds ++ [d]).map GestureEvent.move) =
        gestureRun (gestureStep s GestureEvent.began)
          ((ds ++ [d]).map GestureEvent.move) := rfl
    rw [hrun, (gestureRun_moves (gestureStep s GestureEvent.began) ds d).2]
    rfl
  · have : gestureRun s (GestureEvent.began :: es) =
        gestureRun (gestureStep s GestureEvent.began) es := rfl
    rw [this]
    exact gestureRun_autoRotate_off _ es rfl hes

/-- Witness for C8: one drag of the begin-move-move-end shape. -/
theorem drag_gesture_spec_witness :
    (∀ e ∈ ([GestureEvent.move 30, GestureEvent.ended] : List GestureEvent),
      e ≠ GestureEvent.doubleTap) ∧
    (gestureRun ⟨2, 0, true⟩ (GestureEvent.began ::
        (([30] : List ℚ) ++ [75]).map GestureEvent.move)).rotationY =
      2 + 75 / 150 :=
  ⟨by decide,
    (drag_gesture_spec ⟨2, 0, true⟩ [30] 75
      [GestureEvent.move 30, GestureEvent.ended]
      (by decide)).2.2.1⟩

end GestureControllerTheorems

section AssetLoaderModel

/-- Modelled from the spec: the token-guarded asset loader of sections
4.3 and 5.  The repository delegates the stale-result discard to its UI
framework (the `Character` component of src/components/Stage.tsx merely
selects the current locator and hands it to a suspense-cached loader
whose implementation is not under src/), so the "monotonically
increasing current-request token" mechanism the spec describes is
modelled here from the spec text: the loader state holds the current
request token and the avatar slot. -/
structure LoaderState where
  currentToken : ℕ
  slot : Option String
deriving DecidableEq, Repr

/-- Modelled from the spec: the two loader transitions.  Issuing a load
for a locator advances the current-request token (the new in-flight
request carries the advanced token); a resolution carries the token of
the request it completes and is applied to the avatar slot only when
that token still equals the current one — otherwise it is discarded. -/
inductive LoadEvent where
  | issue (locator : String)
  | resolve (token : ℕ) (locator : String)
deriving DecidableEq, Repr

/-- Modelled from the spec: one loader transition. -/
def loadStep (s : LoaderState) : LoadEvent → LoaderState
  | LoadEvent.issue _ => { s with currentToken := s.currentToken + 1 }
  | LoadEvent.resolve tok loc =>
    if tok = s.currentToken then { s with slot := some loc } else s

/-- Run a list of loader events from a state. -/
def loadRun (s : LoaderState) (es : List LoadEvent) : LoaderState :=
  es.foldl loadStep s

end AssetLoaderModel

section AssetLoaderTheorems

/-- C1: the current-request token is monotonically increasing (an issue
strictly advances it, no event decreases it); a resolution whose token
differs from the current one is discarded, leaving the state untouched;
and in the A-then-B race — issue A, issue B, then B resolves, then A
resolves late — the avatar slot after every step of the trace is either
still empty or holds B, never A, and the final slot holds exactly B. -/
theorem loader_stale_discard (s : LoaderState) (e : LoadEvent)
    (tok n : ℕ) (loc A B : String) (hAB : A ≠ B) :
    s.currentToken ≤ (loadStep s e).currentToken ∧
    (loadStep s (LoadEvent.issue loc)).currentToken = s.currentToken + 1 ∧
    (tok ≠ s.currentToken → loadStep s (LoadEvent.resolve tok loc) = s) ∧
    (loadRun ⟨n, none⟩ [LoadEvent.issue A, LoadEvent.issue B,
        LoadEvent.resolve (n + 2) B, LoadEvent.resolve (n + 1) A] =
      ⟨n + 2, some B⟩) ∧
    (∀ k, (loadRun ⟨n, none⟩ (([LoadEvent.issue A, LoadEvent.issue B,
        LoadEvent.resolve (n + 2) B, LoadEvent.resolve (n + 1) A]).take k)).slot
        ≠ some A) := by
  refine ⟨?_, rfl, ?_, ?_, ?_⟩
  · cases e with
    | issue loc2 => exact Nat.le_succ _
    | resolve tok2 loc2 =>
      by_cases h : tok2 = s.currentToken <;> simp [loadStep, h]
  · intro h
    simp [loadStep, h]
  · simp [loadRun, loadStep, List.foldl]
  · intro k
    match k with
    | 0 => simp [loadRun]
    | 1 => simp [loadRun, loadStep]
    | 2 => simp [loadRun, loadStep]
    | 3 =>
      simp only [loadRun, List.take, List.foldl, loadStep]
      norm_num
      intro h
      exact absurd h.symm hAB
    | (m + 4) =>
      have hlen : ([LoadEvent.issue A, LoadEvent.issue B,
          LoadEvent.resolve (n + 2) B, LoadEvent.resolve (n + 1) A]).length
          ≤ m + 4 := by simp
      rw [List.take_of_length_le hlen]
      simp only [loadRun, List.foldl, loadStep]
      norm_num
      intro h
      exact absurd h.symm hAB

/-- Witness for C1 at concrete locators and tokens. -/
theorem loader_stale_discard_witness :
    ("urlA" : String) ≠ "urlB" ∧
    ((7 : ℕ) ≠ (⟨7, none⟩ : LoaderState).currentToken + 1 → True) ∧
    loadRun ⟨0, none⟩ [LoadEvent.issue "urlA", LoadEvent.issue "urlB",
        LoadEvent.resolve 2 "urlB", LoadEvent.resolve 1 "urlA"] =
      ⟨2, some "urlB"⟩ :=
  ⟨by decide, fun _ => trivial,
    (loader_stale_discard ⟨0, none⟩ (LoadEvent.issue "urlA") 0 0
      "urlA" "urlA" "urlB" (by decide)).2.2.2.1⟩

end AssetLoaderTheorems

section WatchdogDefs

/-- The watchdog state of the `Stage` component
(src/components/Stage.tsx lines 606-638): current time in milliseconds,
the pending one-shot timer deadline held through `dragTimer`
(`none` when no timer is armed), the latched orbit controller
"currently dragging" flag, and a count of completed
disable-then-re-enable cycles of the controller. -/
structure WatchState where
  now : ℕ
  deadline : Option ℕ
  dragging : Bool
  cycles : ℕ
deriving DecidableEq, Repr

/-- The watchdog events: a gesture-begin (`handleStart`: clear any
pending timer and arm `setTimeout(unstickControls, 2500)`), a
gesture-end or cancel (`handleEnd`: clear the timer), and the passage of
one millisecond.  When a millisecond tick reaches an armed deadline the
one-shot timer fires `unstickControls`, which disables the controller —
clearing its latched dragging flag — and re-enables it on the next
animation frame; that complete disable-then-re-enable cycle is counted
in `cycles`, and the fired one-shot timer cannot fire again. -/
inductive WatchEvent where
  | start
  | finish
  | tick
deriving DecidableEq, Repr

/-- One watchdog transition, embedding `handleStart`, `handleEnd` and
the timer/`unstickControls` behavior described above. -/
def watchStep (s : WatchState) : WatchEvent → WatchState
  | WatchEvent.start => { s with deadline := some (s.now + 2500), dragging := true }
  | WatchEvent.finish => { s with deadline := none, dragging := false }
  | WatchEvent.tick =>
    let now2 := s.now + 1
    match s.deadline with
    | some d =>
      if d ≤ now2 then
        { now := now2, deadline := none, dragging := false,
          cycles := s.cycles + 1 }
      else { s with now := now2 }
    | none => { s with now := now2 }

/-- Let `n` milliseconds pass. -/
def watchTicks : ℕ → WatchState → WatchState
  | 0, s => s
  | n + 1, s => watchTicks n (watchStep s WatchEvent.tick)

/-- With no timer armed, the passage of time changes nothing but the
clock. -/
theorem watchTicks_none (n : ℕ) (s : WatchState) (h : s.deadline = none) :
    watchTicks n s = { s with now := s.now + n } := by
  induction n generalizing s with
  | zero => simp [watchTicks]
  | succ m ih =>
    rw [watchTicks]
    have hstep : watchStep s WatchEvent.tick = { s with now := s.now + 1 } := by
      simp [watchStep, h]
    rw [hstep, ih { s with now := s.now + 1 } h]
    have harith : s.now + 1 + m = s.now + (m + 1) := by omega
    simp [harith]

/-- With a timer armed at a future deadline, once enough milliseconds
pass the timer fires exactly once: one disable-then-re-enable cycle is
recorded, the latched dragging flag is cleared, and the one-shot timer
is gone. -/
theorem watchTicks_fires (n : ℕ) (s : WatchState) (d : ℕ)
    (harm : s.deadline = some d) (hlt : s.now < d) (hn : d ≤ s.now + n) :
    (watchTicks n s).cycles = s.cycles + 1 ∧
    (watchTicks n s).dragging = false ∧
    (watchTicks n s).deadline = none := by
  induction n generalizing s with
  | zero => omega
  | succ m ih =>
    rw [watchTicks]
    by_cases hfire : d ≤ s.now + 1
    · have hstep : watchStep s WatchEvent.tick =
          { now := s.now + 1, deadline := none, dragging := false,
            cycles := s.cycles + 1 } := by
        simp [watchStep, harm, hfire]
      rw [hstep, watchTicks_none m _ rfl]
      exact ⟨rfl, rfl, rfl⟩
    · have hstep : watchStep s WatchEvent.tick = { s with now := s.now + 1 } := by
        simp [watchStep, harm]
        omega
      rw [hstep]
      exact ih { s with now := s.now + 1 } harm
        (show s.now + 1 < d by omega) (show d ≤ s.now + 1 + m by omega)

/-- With a timer armed strictly beyond the elapsed window, nothing
fires: the cycle count, the deadline and the dragging flag survive. -/
theorem watchTicks_quiet (n : ℕ) (s : WatchState) (d : ℕ)
    (harm : s.deadline = some d) (hn : s.now + n < d) :
    watchTicks n s = { s with now := s.now + n } := by
  induction n generalizing s with
  | zero => simp [watchTicks]
  | succ m ih =>
    rw [watchTicks]
    have hstep : watchStep s WatchEvent.tick = { s with now := s.now + 1 } := by
      simp [watchStep, harm]
      omega
    rw [hstep, ih { s with now := s.now + 1 } harm
      (show s.now + 1 + m < d by omega)]
    have harith : s.now + 1 + m = s.now + (m + 1) := by omega
    simp [harith]

end WatchdogDefs

section WatchdogTheorems

/-- C3: a gesture-begin arms the watchdog at 2500 ms from now; a
legitimate end or cancel disarms it; a gesture-begin followed by at
least 2500 ms with no end produces exactly one disable-then-re-enable
cycle of the orbit controller (the cycle count rises by exactly one, no
matter how much longer the window lasts) and clears the latched dragging
flag, closing the stuck gesture session; and a begin answered by an end
after `k < 2500` ms produces no cycle at all, with the timer left
disarmed forever after. -/
theorem watchdog_exactly_one_cycle (s : WatchState) (n k m : ℕ)
    (hn : 2500 ≤ n) (hk : k < 2500) :
    (watchStep s WatchEvent.start).deadline = some (s.now + 2500) ∧
    (watchStep s WatchEvent.finish).deadline = none ∧
    ((watchTicks n (watchStep s WatchEvent.start)).cycles = s.cycles + 1 ∧
      (watchTicks n (watchStep s WatchEvent.start)).dragging = false ∧
      (watchTicks n (watchStep s WatchEvent.start)).deadline = none) ∧
    ((watchTicks m (watchStep (watchTicks k (watchStep s WatchEvent.start))
        WatchEvent.finish)).cycles = s.cycles ∧
      (watchTicks m (watchStep (watchTicks k (watchStep s WatchEvent.start))
        WatchEvent.finish)).deadline = none) := by
  refine ⟨rfl, rfl, ?_, ?_⟩
  · exact watchTicks_fires n (watchStep s WatchEvent.start) (s.now + 2500)
      rfl (show s.now < s.now + 2500 by omega)
      (show s.now + 2500 ≤ s.now + n by omega)
  · have hquiet : watchTicks k (watchStep s WatchEvent.start) =
        { watchStep s WatchEvent.start with
          now := (watchStep s WatchEvent.start).now + k } := by
      exact watchTicks_quiet k (watchStep s WatchEvent.start) (s.now + 2500)
        rfl (show s.now + k < s.now + 2500 by omega)
    rw [hquiet]
    have hfin : watchStep { watchStep s WatchEvent.start with
        now := (watchStep s WatchEvent.start).now + k } WatchEvent.finish =
        { now := s.now + k, deadline := none, dragging := false,
          cycles := s.cycles } := by
      simp [watchStep]
    rw [hfin, watchTicks_none m _ rfl]
    exact ⟨rfl, rfl⟩

/-- Witness for C3: a stuck gesture watched for exactly 2500 ms from the
all-zero state, and a normal gesture answered after 100 ms. -/
theorem watchdog_exactly_one_cycle_witness :
    (2500 : ℕ) ≤ 2500 ∧ (100 : ℕ) < 2500 ∧
    (watchTicks 2500 (watchStep ⟨0, none, false, 0⟩ WatchEvent.start)).cycles
      = 1 :=
  ⟨by decide, by decide,
    ((watchdog_exactly_one_cycle ⟨0, none, false, 0⟩ 2500 100 40
      (by decide) (by decide)).2.2.1).1⟩

end WatchdogTheorems

section FrameLoopDefs

/-- Shallow embedding of the per-frame body of `useFrame` in the Stage
of src/unnamed/part_003 (lines 14-25): the displayed yaw first relaxes
toward the drag target by the damping fraction 0.15
(`current + (rotationY - current) * 0.15`), and then, when the
turntable speed is nonzero, that same displayed yaw — not the target —
is incremented by the turntable speed. -/
def frameStep (rotationY turntableSpeed current : ℚ) : ℚ :=
  let damped := current + (rotationY - current) * (15 / 100)
  if turntableSpeed ≠ 0 then damped + turntableSpeed else damped

/-- Iterate the frame body `n` frames from a starting displayed yaw,
with the drag target and the turntable speed held fixed (they only
change on user input). -/
def frameIter (rotationY turntableSpeed : ℚ) : ℕ → ℚ → ℚ
  | 0, c => c
  | n + 1, c => frameIter rotationY turntableSpeed n
      (frameStep rotationY turntableSpeed c)

end FrameLoopDefs

section FrameLoopTheorems

/-- C7 failing behavior: with auto-rotate on (`turntableSpeed = 3/1000`,
the 0.003 of the source) and the drag target fixed at 0, the displayed
yaw produced by the code never exceeds 1/50 = 0.02 radians, no matter
how many frames pass: `targetYaw + turntableSpeed / damping` is a fixed
point of the frame body.  The yaw therefore stalls at a 0.02-radian
offset instead of turning, because the source adds the per-frame
increment to the damped displayed yaw rather than to `rotationY`; had
the increment been added to the target, as the claim states, the yaw
would grow without bound.  The damping half of the claim is visible in
`frameStep`: the relaxation is by the fraction 0.15 of the remaining
difference, not a constant-size step. -/
theorem turntable_stalls :
    (∀ n : ℕ, 0 ≤ frameIter 0 (3 / 1000) n 0 ∧
      frameIter 0 (3 / 1000) n 0 ≤ 1 / 50) ∧
    frameStep 0 (3 / 1000) (1 / 50) = 1 / 50 ∧
    (∀ target current : ℚ,
      frameStep target 0 current = current + (target - current) * (15 / 100)) := by
  refine ⟨?_, by norm_num [frameStep], fun t c => by norm_num [frameStep]⟩
  have key : ∀ n : ℕ, ∀ c : ℚ, 0 ≤ c → c ≤ 1 / 50 →
      0 ≤ frameIter 0 (3 / 1000) n c ∧ frameIter 0 (3 / 1000) n c ≤ 1 / 50 := by
    intro n
    induction n with
    | zero => intro c h0 h1; exact ⟨h0, h1⟩
    | succ m ih =>
      intro c h0 h1
      have hstep : frameStep 0 (3 / 1000) c = c * (85 / 100) + 3 / 1000 := by
        norm_num [frameStep]
        ring
      have hlo : 0 ≤ frameStep 0 (3 / 1000) c := by
        rw [hstep]; nlinarith
      have hhi : frameStep 0 (3 / 1000) c ≤ 1 / 50 := by
        rw [hstep]; nlinarith
      exact ih (frameStep 0 (3 / 1000) c) hlo hhi
  intro n
  exact key n 0 (by norm_num) (by norm_num)

end FrameLoopTheorems

section ProceduralTextureDefs

/-- three.js `MathUtils.lerp(x, y, t) = (1 - t) * x + t * y`. -/
def lerp {K : Type*} [Field K] (x y t : K) : K := (1 - t) * x + t * y

/-- three.js `MathUtils.clamp(value, lo, hi) = max(lo, min(hi, value))`. -/
def clamp {K : Type*} [LinearOrder K] (value lo hi : K) : K := max lo (min hi value)

/-- Squared distance `dx*dx + dy*dy` of pixel `(x, y)` from the texture
center `(cx, cy)` with `cx = cy = size * 0.5`, as in
`makeRadialRoughnessTex` (src/components/Stage.tsx lines 38-81). -/
def distSq (size x y : ℕ) : ℚ :=
  ((x : ℚ) - (size : ℚ) / 2) ^ 2 + ((y : ℚ) - (size : ℚ) / 2) ^ 2

/-- Squared distance `cx*cx + cy*cy` from the center to the `(0, 0)`
corner — the square of the `maxR` of the source. -/
def maxRSq (size : ℕ) : ℚ := ((size : ℚ) / 2) ^ 2 + ((size : ℚ) / 2) ^ 2

/-- The interpolation parameter of the source:
`r = Math.min(1, Math.sqrt(dx*dx + dy*dy) / maxR)` followed by
`t = r * r`.  Because `min(1, a/b)^2 = min(1, a^2/b^2)` for nonnegative
`a, b`, the parameter equals `min 1 (distSq / maxRSq)` exactly, which
keeps the definition inside the rationals; the equality with the
square-root form of the source is proved in `tval_eq_sq`. -/
def tval (size x y : ℕ) : ℚ := min 1 (distSq size x y / maxRSq size)

/-- The byte written into each color channel of a pixel:
`Math.round(clamp(lerp(centerRough, edgeRough, t), 0, 1) * 255)`.
JavaScript `Math.round x = floor (x + 1/2)`, which is Mathlib `round`. -/
def pixelByte (size : ℕ) (c e : ℚ) (x y : ℕ) : ℕ :=
  (round (clamp (lerp c e (tval size x y)) 0 1 * 255)).toNat

/-- The RGBA pixel buffer of `makeRadialRoughnessTex`: the row-major
double loop writes, at offset `(y * size + x) * 4`, the channel byte
three times followed by an alpha byte of 255. -/
def makeRadialRoughnessTex (size : ℕ) (c e : ℚ) : List ℕ :=
  (List.range size).flatMap (fun y => (List.range size).flatMap (fun x =>
    [pixelByte size c e x y, pixelByte size c e x y, pixelByte size c e x y, 255]))

theorem distSq_nonneg (size x y : ℕ) : 0 ≤ distSq size x y :=
  add_nonneg (sq_nonneg _) (sq_nonneg _)

theorem maxRSq_pos (size : ℕ) (h : 0 < size) : 0 < maxRSq size := by
  have hs : (0 : ℚ) < (size : ℚ) / 2 := by
    have : (0 : ℚ) < (size : ℚ) := by exact_mod_cast h
    linarith
  unfold maxRSq
  nlinarith

/-- The rational interpolation parameter equals the square of the
capped normalized radial distance computed with real square roots, as
the source writes it. -/
theorem tval_eq_sq (size x y : ℕ) (h : 0 < size) :
    ((tval size x y : ℚ) : ℝ) =
      (min 1 (Real.sqrt ((distSq size x y : ℚ) : ℝ) /
        Real.sqrt ((maxRSq size : ℚ) : ℝ))) ^ 2 := by
  have hd : (0 : ℝ) ≤ ((distSq size x y : ℚ) : ℝ) := by
    exact_mod_cast distSq_nonneg size x y
  have hm : (0 : ℝ) < ((maxRSq size : ℚ) : ℝ) := by
    exact_mod_cast maxRSq_pos size h
  set d : ℝ := ((distSq size x y : ℚ) : ℝ)
  set m : ℝ := ((maxRSq size : ℚ) : ℝ)
  have hs : 0 ≤ Real.sqrt d / Real.sqrt m :=
    div_nonneg (Real.sqrt_nonneg _) (Real.sqrt_nonneg _)
  have hsq : (Real.sqrt d / Real.sqrt m) ^ 2 = d / m := by
    rw [div_pow, Real.sq_sqrt hd, Real.sq_sqrt (le_of_lt hm)]
  have hmin : (min 1 (Real.sqrt d / Real.sqrt m)) ^ 2 =
      min 1 ((Real.sqrt d / Real.sqrt m) ^ 2) := by
    rcases le_total (Real.sqrt d / Real.sqrt m) 1 with hle | hge
    · rw [min_eq_right hle, min_eq_right (pow_le_one₀ hs hle)]
    · rw [min_eq_left hge, min_eq_left (by nlinarith), one_pow]
  rw [hmin, hsq]
  unfold tval
  push_cast
  rfl

/-- The channel byte equals the claim formula, written with the real
square roots of the source. -/
theorem pixelByte_eq_real (size x y : ℕ) (c e : ℚ) (h : 0 < size) :
    pixelByte size c e x y =
      (round (clamp (lerp (c : ℝ) (e : ℝ)
        ((min 1 (Real.sqrt ((distSq size x y : ℚ) : ℝ) /
          Real.sqrt ((maxRSq size : ℚ) : ℝ))) ^ 2)) 0 1 * 255)).toNat := by
  rw [← tval_eq_sq size x y h]
  have hcast : clamp (lerp (c : ℝ) (e : ℝ) ((tval size x y : ℚ) : ℝ)) 0 1 * 255 =
      ((clamp (lerp c e (tval size x y)) 0 1 * 255 : ℚ) : ℝ) := by
    unfold clamp lerp
    push_cast
    rfl
  rw [hcast, Rat.round_cast]
  rfl

end ProceduralTextureDefs

section ProceduralTextureIndexing

/-- Length of a flatMap over `range` when every block has length `L`. -/
theorem flatMapRange_length {α : Type*} (f : ℕ → List α) (L n : ℕ)
    (hL : ∀ i, (f i).length = L) :
    ((List.range n).flatMap f).length = n * L := by
  induction n with
  | zero => simp
  | succ m ih =>
    rw [List.range_succ, List.flatMap_append]
    simp [ih, hL, Nat.succ_mul]

/-- Indexing into a flatMap over `range` with constant block length
selects inside block `i` at offset `j`. -/
theorem flatMapRange_getElem {α : Type*} (f : ℕ → List α) (L n i j : ℕ)
    (hL : ∀ t, (f t).length = L) (hi : i < n) (hj : j < L) :
    ((List.range n).flatMap f)[i * L + j]? = (f i)[j]? := by
  induction n with
  | zero => omega
  | succ m ih =>
    rw [List.range_succ, List.flatMap_append]
    by_cases h : i < m
    · rw [List.getElem?_append_left]
      · exact ih h
      · rw [flatMapRange_length f L m hL]
        have h1 : i * L + j < (i + 1) * L := by rw [Nat.succ_mul]; omega
        have h2 : (i + 1) * L ≤ m * L := Nat.mul_le_mul_right L (by omega)
        exact lt_of_lt_of_le h1 h2
    · have hieq : i = m := by omega
      subst hieq
      rw [List.getElem?_append_right (by rw [flatMapRange_length f L i hL]; omega)]
      rw [flatMapRange_length f L i hL]
      simp

/-- The bytes of pixel `(x, y)` sit at offsets `(y * size + x) * 4 + k`
for `k < 4`, exactly as the row-major loop writes them. -/
theorem radialTex_getElem (size x y k : ℕ) (c e : ℚ)
    (hx : x < size) (hy : y < size) (hk : k < 4) :
    (makeRadialRoughnessTex size c e)[(y * size + x) * 4 + k]? =
      ([pixelByte size c e x y, pixelByte size c e x y,
        pixelByte size c e x y, 255] : List ℕ)[k]? := by
  unfold makeRadialRoughnessTex
  have hidx : (y * size + x) * 4 + k = y * (size * 4) + (x * 4 + k) := by ring
  rw [hidx]
  rw [flatMapRange_getElem
    (fun y2 => (List.range size).flatMap (fun x2 =>
      [pixelByte size c e x2 y2, pixelByte size c e x2 y2,
        pixelByte size c e x2 y2, 255]))
    (size * 4) size y (x * 4 + k)
    (fun t => flatMapRange_length
      (fun x2 => [pixelByte size c e x2 t, pixelByte size c e x2 t,
        pixelByte size c e x2 t, 255]) 4 size (fun _ => rfl))
    hy (by omega)]
  exact flatMapRange_getElem
    (fun x2 => [pixelByte size c e x2 y, pixelByte size c e x2 y,
      pixelByte size c e x2 y, 255]) 4 size x k (fun _ => rfl) hx hk

end ProceduralTextureIndexing

section ProceduralTextureTheorems

/-- C6: for every pixel `(x, y)` of the generated buffer, the four bytes
at offset `(y * size + x) * 4` are the channel value repeated in R, G
and B and an alpha of 255, and the channel value is exactly
`round(clamp(lerp(centerValue, edgeValue, r^2), 0, 1) * 255)` where `r`
is the radial distance from the texture center normalized to be 0 at
the center and 1 at the farthest corner, capped at 1; and the generator
is deterministic — equal arguments give byte-identical buffers. -/
theorem radialTex_pixel_formula (size x y : ℕ) (c e : ℚ)
    (hx : x < size) (hy : y < size) :
    ((makeRadialRoughnessTex size c e)[(y * size + x) * 4]? =
        some (pixelByte size c e x y) ∧
      (makeRadialRoughnessTex size c e)[(y * size + x) * 4 + 1]? =
        some (pixelByte size c e x y) ∧
      (makeRadialRoughnessTex size c e)[(y * size + x) * 4 + 2]? =
        some (pixelByte size c e x y) ∧
      (makeRadialRoughnessTex size c e)[(y * size + x) * 4 + 3]? =
        some 255) ∧
    pixelByte size c e x y =
      (round (clamp (lerp (c : ℝ) (e : ℝ)
        ((min 1 (Real.sqrt ((distSq size x y : ℚ) : ℝ) /
          Real.sqrt ((maxRSq size : ℚ) : ℝ))) ^ 2)) 0 1 * 255)).toNat ∧
    makeRadialRoughnessTex size c e = makeRadialRoughnessTex size c e := by
  have hsize : 0 < size := Nat.pos_of_ne_zero (by omega)
  refine ⟨⟨?_, ?_, ?_, ?_⟩, pixelByte_eq_real size x y c e hsize, rfl⟩
  · have := radialTex_getElem size x y 0 c e hx hy (by omega)
    simpa using this
  · exact radialTex_getElem size x y 1 c e hx hy (by omega)
  · exact radialTex_getElem size x y 2 c e hx hy (by omega)
  · exact radialTex_getElem size x y 3 c e hx hy (by omega)

/-- Witness for C6 at a 1x1 texture with the roughness values of the
source call site (0.12 center, 0.28 edge). -/
theorem radialTex_pixel_formula_witness :
    (0 : ℕ) < 1 ∧
    (makeRadialRoughnessTex 1 (12/100) (28/100))[(0 * 1 + 0) * 4]? =
      some (pixelByte 1 (12/100) (28/100) 0 0) :=
  ⟨by decide,
    (radialTex_pixel_formula 1 0 0 (12/100) (28/100) (by decide)
      (by decide)).1.1⟩

end ProceduralTextureTheorems

section ProceduralTextureMonotone

/-- The interpolation parameter grows with the squared radial distance. -/
theorem tval_mono (size x1 y1 x2 y2 : ℕ) (hsize : 0 < size)
    (hd : distSq size x1 y1 ≤ distSq size x2 y2) :
    tval size x1 y1 ≤ tval size x2 y2 := by
  unfold tval
  have hm := maxRSq_pos size hsize
  exact min_le_min (le_refl 1) (by gcongr)

/-- The channel byte is monotone in the interpolation parameter when the
center value is at most the edge value, and antitone when it is at
least the edge value. -/
theorem pixelByte_of_tval_le (size : ℕ) (c e : ℚ) (x1 y1 x2 y2 : ℕ)
    (ht : tval size x1 y1 ≤ tval size x2 y2) :
    (c ≤ e → pixelByte size c e x1 y1 ≤ pixelByte size c e x2 y2) ∧
    (e ≤ c → pixelByte size c e x2 y2 ≤ pixelByte size c e x1 y1) := by
  constructor
  · intro hce
    unfold pixelByte
    apply Int.toNat_le_toNat
    have hlerp : lerp c e (tval size x1 y1) ≤ lerp c e (tval size x2 y2) := by
      unfold lerp
      nlinarith [mul_nonneg (sub_nonneg.mpr ht) (sub_nonneg.mpr hce)]
    have hclamp : clamp (lerp c e (tval size x1 y1)) 0 1 ≤
        clamp (lerp c e (tval size x2 y2)) 0 1 :=
      max_le_max (le_refl 0) (min_le_min (le_refl 1) hlerp)
    rw [round_eq, round_eq]
    apply Int.floor_le_floor
    nlinarith
  · intro hec
    unfold pixelByte
    apply Int.toNat_le_toNat
    have hlerp : lerp c e (tval size x2 y2) ≤ lerp c e (tval size x1 y1) := by
      unfold lerp
      nlinarith [mul_nonneg (sub_nonneg.mpr ht) (sub_nonneg.mpr hec)]
    have hclamp : clamp (lerp c e (tval size x2 y2)) 0 1 ≤
        clamp (lerp c e (tval size x1 y1)) 0 1 :=
      max_le_max (le_refl 0) (min_le_min (le_refl 1) hlerp)
    rw [round_eq, round_eq]
    apply Int.floor_le_floor
    nlinarith

end ProceduralTextureMonotone

section ProceduralTextureMonotoneTheorems

/-- C10: within one generated buffer, for two pixels `p = (x1, y1)` and
`q = (x2, y2)` with the radial distance of `p` from the texture center
at most that of `q`, the stored channel byte of `p` is at most that of
`q` whenever `centerValue ≤ edgeValue`, and at least that of `q`
whenever `centerValue ≥ edgeValue`. -/
theorem radialTex_monotone (size x1 y1 x2 y2 : ℕ) (c e : ℚ)
    (hx1 : x1 < size) (hy1 : y1 < size) (hx2 : x2 < size) (hy2 : y2 < size)
    (hdist : Real.sqrt ((distSq size x1 y1 : ℚ) : ℝ) ≤
      Real.sqrt ((distSq size x2 y2 : ℚ) : ℝ)) :
    (c ≤ e → pixelByte size c e x1 y1 ≤ pixelByte size c e x2 y2) ∧
    (e ≤ c → pixelByte size c e x2 y2 ≤ pixelByte size c e x1 y1) := by
  have hsize : 0 < size := by omega
  have hdq : distSq size x1 y1 ≤ distSq size x2 y2 := by
    have h2 : (0 : ℝ) ≤ ((distSq size x2 y2 : ℚ) : ℝ) := by
      exact_mod_cast distSq_nonneg size x2 y2
    have := (Real.sqrt_le_sqrt_iff h2).mp hdist
    exact_mod_cast this
  exact pixelByte_of_tval_le size c e x1 y1 x2 y2
    (tval_mono size x1 y1 x2 y2 hsize hdq)

/-- Witness for C10 on a 2x2 texture: the center-most pixel `(1, 1)` is
no rougher than the corner pixel `(0, 0)` for the source values
(center 0.12 at most edge 0.28). -/
theorem radialTex_monotone_witness :
    Real.sqrt ((distSq 2 1 1 : ℚ) : ℝ) ≤ Real.sqrt ((distSq 2 0 0 : ℚ) : ℝ) ∧
    (12 / 100 : ℚ) ≤ 28 / 100 ∧
    pixelByte 2 (12/100) (28/100) 1 1 ≤ pixelByte 2 (12/100) (28/100) 0 0 := by
  have hd : ((distSq 2 1 1 : ℚ) : ℝ) ≤ ((distSq 2 0 0 : ℚ) : ℝ) := by
    norm_num [distSq]
  refine ⟨Real.sqrt_le_sqrt hd, by norm_num, ?_⟩
  exact (radialTex_monotone 2 1 1 0 0 (12/100) (28/100) (by decide) (by decide)
    (by decide) (by decide) (Real.sqrt_le_sqrt hd)).1 (by norm_num)

end ProceduralTextureMonotoneTheorems
